import Mathlib

/-!
Shallow embedding of the `piano_on` ML pipeline
(`src/ml/scripts/train_baseline.py` and `src/ml/scripts/predict_file.py`).

Samples, feature values and probabilities are modelled as rationals (ℚ):
the numeric library primitives (librosa DSP kernels, numpy statistics,
sklearn's fitted sigmoid) operate on machine floats and are not shallowly
embeddable bit-for-bit, so they appear as opaque *function parameters*
bundled in a `DSP` record, while every piece of logic written in the
repository itself (branching, list construction, ordering, the training
loop, the split plumbing, thresholding, artifact packing) is translated
statement by statement.
-/

/-- `ExtractionConfig`: the YAML configuration keys read by the scripts
(`sample_rate`, `max_duration_seconds`, `n_fft`, `hop_length`, `n_mels`,
plus the split ratios and seed used by `main`). -/
structure ExtractionConfig where
  sample_rate : ℕ
  max_duration_seconds : ℚ
  n_fft : ℕ
  hop_length : ℕ
  n_mels : ℕ
  deriving DecidableEq, Repr

/-- Opaque numeric primitives used by `featurize`.  Each field stands for
the corresponding librosa/numpy call; they are parameters because their
floating-point innards are outside the repository.  `toF32` models the
final `np.array(feats, dtype=np.float32)` narrowing cast applied
elementwise. -/
structure DSP where
  mean : List ℚ → ℚ
  std : List ℚ → ℚ
  percentile : List ℚ → ℚ → ℚ
  logmelFlat : ExtractionConfig → List ℚ → List ℚ
  spectralCentroid : ExtractionConfig → List ℚ → List ℚ
  spectralRolloff : ExtractionConfig → List ℚ → List ℚ
  zeroCrossingRate : List ℚ → List ℚ
  rms : List ℚ → List ℚ
  toF32 : ℚ → ℚ

/-- `featurize(path, cfg)` after the signal has been decoded
(`librosa.load` is the fallible decode step, modelled separately in the
training loop).  Translated line by line from
`src/ml/scripts/train_baseline.py` (the copy in `predict_file.py` is
textually identical):

* `if y.size == 0: return np.zeros(12, dtype=np.float32)` — note the
  source really allocates **12** zeros here;
* five scalar summaries of the flattened log-mel matrix;
* the `for arr in (centroid, rolloff, zcr, rms)` loop appending
  `mean(arr)` then `std(arr)` for each series, embedded as the very same
  left fold over the four series. -/
def featurize (d : DSP) (cfg : ExtractionConfig) (y : List ℚ) : List ℚ :=
  if y.length = 0 then List.replicate 12 0
  else
    let logmel := d.logmelFlat cfg y
    let feats : List ℚ :=
      [d.mean logmel, d.std logmel,
       d.percentile logmel 10, d.percentile logmel 50, d.percentile logmel 90]
    let series : List (List ℚ) :=
      [d.spectralCentroid cfg y, d.spectralRolloff cfg y,
       d.zeroCrossingRate y, d.rms y]
    let feats := series.foldl (fun fs arr => fs ++ [d.mean arr, d.std arr]) feats
    feats.map d.toF32

/-- Decision rule `int(p >= 0.5)` from `predict_file.py` line 53. -/
def predLabel (p : ℚ) : ℤ :=
  if (1 : ℚ)/2 ≤ p then 1 else 0

/-- Vectorized decision rule `(prob >= 0.5).astype(int)` applied by the
evaluator in `train_baseline.py` lines 98–99. -/
def thresholdPreds (ps : List ℚ) : List ℤ :=
  ps.map predLabel

/-- A concrete instantiation of the opaque DSP primitives, used only to
evaluate the embedding on closed inputs (witnesses). -/
def dsp0 : DSP where
  mean := fun l => l.headI
  std := fun l => l.getLastD 0
  percentile := fun _ q => q
  logmelFlat := fun _ y => y
  spectralCentroid := fun _ y => 2 :: y
  spectralRolloff := fun _ y => 3 :: y
  zeroCrossingRate := fun y => 4 :: y
  rms := fun y => 5 :: y
  toF32 := fun q => q

/-- A concrete configuration for witnesses. -/
def cfg0 : ExtractionConfig where
  sample_rate := 22050
  max_duration_seconds := 10
  n_fft := 2048
  hop_length := 512
  n_mels := 64

/-- One manifest row: a file path and the raw `label` column value as read
from the CSV (parsed by `int(row.label)` only inside the loop body). -/
structure Row where
  path : String
  label : String
  deriving DecidableEq, Repr

/-- Accumulated state of the dataset-assembly loop: the lists `X`, `y`,
`kept_paths`, plus the skip log written by `print(f"skip ...")`. -/
structure AssembleState where
  X : List (List ℚ)
  y : List ℤ
  kept_paths : List String
  skipLog : List String
  deriving DecidableEq, Repr

/-- One iteration of the `for row in df.itertuples()` loop in
`train_baseline.py` lines 62–69.  Python evaluation order is kept:
`X.append(featurize(row.path, cfg))` runs first, so if it succeeds the
feature vector is already in `X` before `int(row.label)` is evaluated;
a failure of either call is caught by the surrounding `except`, which
logs the path and moves on. -/
def assembleStep (feat : String → Except String (List ℚ))
    (plabel : String → Except String ℤ)
    (st : AssembleState) (r : Row) : AssembleState :=
  match feat r.path with
  | .error _ => { st with skipLog := st.skipLog ++ [r.path] }
  | .ok v =>
    match plabel r.label with
    | .error _ =>
      { st with X := st.X ++ [v], skipLog := st.skipLog ++ [r.path] }
    | .ok n =>
      { st with X := st.X ++ [v], y := st.y ++ [n],
                kept_paths := st.kept_paths ++ [r.path] }

/-- The whole assembly loop over the manifest rows. -/
def assemble (feat : String → Except String (List ℚ))
    (plabel : String → Except String ℤ) (rows : List Row) : AssembleState :=
  rows.foldl (assembleStep feat plabel) ⟨[], [], [], []⟩

/-- Run-level failures of `main` in `train_baseline.py`:
`stackError` models the `ValueError` raised by `np.vstack([])` when no
feature vector was assembled; `insufficientClasses` models the
`RuntimeError("Training requires at least 2 classes...")` (the spec's
`InsufficientClassesError`). -/
inductive TrainError where
  | stackError
  | insufficientClasses
  deriving DecidableEq, Repr

/-- `np.vstack`'s precondition on a list of 1-D rows: at least one row
(an empty list raises `ValueError: need at least one array`) and all
rows of the same width (ragged widths raise
`ValueError: all the input array dimensions ... must match`).  Ragged
widths are reachable in this program: the empty-signal branch of
`featurize` emits a 12-wide vector among 13-wide ones. -/
def uniformWidth (X : List (List ℚ)) : Bool :=
  X.all (fun v => v.length = X.headI.length)

/-- The stages of `main` from the assembly loop through the class-count
guard (`train_baseline.py` lines 71–78).  `np.vstack(X)` runs first and
raises on an empty list or on rows of mismatched widths; then
`np.unique(y)` feeds the `if unique.size < 2: raise` guard.  On success
it returns the assembled data, on which the split and fit stages then
operate; an error therefore occurs before any split or fit. -/
def checkClasses (feat : String → Except String (List ℚ))
    (plabel : String → Except String ℤ) (rows : List Row) :
    Except TrainError (List (List ℚ) × List ℤ) :=
  let st := assemble feat plabel rows
  if st.X.length = 0 then .error .stackError
  else if uniformWidth st.X = false then .error .stackError
  else if st.y.dedup.length < 2 then .error .insufficientClasses
  else .ok (st.X, st.y)

/-- The fitted `LogisticRegression`, reduced to the parameters that
`joblib` serializes (coefficients and intercept); its probability map is
kept opaque (a function parameter) wherever it is needed. -/
structure LogregModel where
  coef : List ℚ
  intercept : ℚ
  deriving DecidableEq, Repr

/-- The bundle `{"model": model, "config": cfg}` written by
`joblib.dump` in `train_baseline.py` line 110. -/
structure Pack where
  model : LogregModel
  config : ExtractionConfig
  deriving DecidableEq, Repr

/-- Reads a serialized scalar back as a natural number; fails on any
value that is not a non-negative integer (corrupt artifact). -/
def asNat (q : ℚ) : Except String ℕ :=
  if q.den = 1 ∧ 0 ≤ q.num then .ok q.num.toNat else .error "corrupt artifact"

/-- Serialization of the artifact bundle (model of `joblib.dump`): a flat
scalar stream carrying the coefficient count, the coefficients, the
intercept, and the five configuration fields. -/
def encodePack (p : Pack) : List ℚ :=
  (p.model.coef.length : ℚ) :: p.model.coef ++
    [p.model.intercept, (p.config.sample_rate : ℚ), p.config.max_duration_seconds,
     (p.config.n_fft : ℚ), (p.config.hop_length : ℚ), (p.config.n_mels : ℚ)]

/-- Deserialization (model of `joblib.load`): parses the stream back into
a `Pack`, failing on any malformed or truncated stream.  The `Except`
result is the all-or-nothing contract: there is no partially loaded
state. -/
def decodePack (s : List ℚ) : Except String Pack :=
  match s with
  | [] => .error "corrupt artifact"
  | n :: rest =>
    match asNat n with
    | .error e => .error e
    | .ok k =>
      if rest.length = k + 6 then
        match rest.drop k with
        | [i, sr, md, nf, hl, nm] =>
          match asNat sr, asNat nf, asNat hl, asNat nm with
          | .ok srN, .ok nfN, .ok hlN, .ok nmN =>
            .ok ⟨⟨rest.take k, i⟩, ⟨srN, md, nfN, hlN, nmN⟩⟩
          | _, _, _, _ => .error "corrupt artifact"
        | _ => .error "corrupt artifact"
      else .error "corrupt artifact"

/-- The body of `main` in `predict_file.py` lines 47–57, after the
artifact has been loaded: it reads only `pack["model"]`, featurizes the
audio with the *supplied* configuration, and thresholds the probability.
`proba` is the opaque `model.predict_proba(...)[0, 1]` map of the fitted
model. -/
def predictMain (proba : LogregModel → List ℚ → ℚ) (d : DSP)
    (cfg : ExtractionConfig) (pack : Pack) (audio : List ℚ) : ℚ × ℤ :=
  let model := pack.model
  let x := featurize d cfg audio
  let p := proba model x
  (p, predLabel p)

/-- Model of the seeded pseudo-random permutation inside sklearn's
`train_test_split(random_state=seed)`: a deterministic seed-indexed
permutation of the input (the exact Mersenne-Twister shuffle is outside
the repository; every property claimed of the split quantifies over the
outcome of an arbitrary such permutation). -/
def shuffle (seed : ℕ) (l : List α) : List α :=
  l.rotate (seed % (l.length + 1))

/-- sklearn's test-set size for a fractional `test_size`: `ceil(frac*n)`. -/
def nTestOf (frac : ℚ) (n : ℕ) : ℕ :=
  (Int.ceil (frac * n)).toNat

/-- One unstratified `train_test_split(l, test_size=frac)` call on a
single class group: permute, carve off the test block, return
`(train, test)`. -/
def tts (seed : ℕ) (frac : ℚ) (l : List α) : List α × List α :=
  let s := shuffle seed l
  let k := nTestOf frac s.length
  (s.drop k, s.take k)

/-- The class groups induced by `stratify=y`: for each distinct label (in
first-occurrence order) the sublist of examples carrying it. -/
def classParts (l : List (α × ℤ)) : List (List (α × ℤ)) :=
  ((l.map Prod.snd).dedup).map (fun k => l.filter (fun x => decide (x.2 = k)))

/-- `train_test_split(X, y, test_size=frac, random_state=seed, stratify=y)`:
the split is applied within each class group and the groups' train
(resp. test) halves are concatenated.  Examples are carried as
(feature, label) pairs since sklearn applies the same index selection to
`X` and `y`. -/
def stratTTS (seed : ℕ) (frac : ℚ) (l : List (α × ℤ)) :
    List (α × ℤ) × List (α × ℤ) :=
  let parts := classParts l
  ((parts.map (fun g => (tts seed frac g).1)).flatten,
   (parts.map (fun g => (tts seed frac g).2)).flatten)

/-- The two-stage split of `train_baseline.py` lines 80–87: first carve
off the train fraction (`test_size = 1 - train_split`), then split the
remainder into validation/test with `val_ratio = val/(val+test)`
(`test_size = 1 - val_ratio`). -/
def splitDataset (seed : ℕ) (trainFrac valFrac testFrac : ℚ)
    (l : List (α × ℤ)) : List (α × ℤ) × List (α × ℤ) × List (α × ℤ) :=
  let s1 := stratTTS seed (1 - trainFrac) l
  let valRatio := valFrac / (valFrac + testFrac)
  let s2 := stratTTS seed (1 - valRatio) s1.2
  (s1.1, s2.1, s2.2)

/-- The feature value a row contributes to `X` (when its decode succeeds). -/
def rowFeat (feat : String → Except String (List ℚ)) (r : Row) :
    Option (List ℚ) :=
  (feat r.path).toOption

/-- The label a row contributes to `y`: present exactly when both the
decode and the label parse succeed. -/
def rowLab (feat : String → Except String (List ℚ))
    (plabel : String → Except String ℤ) (r : Row) : Option ℤ :=
  match feat r.path with
  | .error _ => none
  | .ok _ => (plabel r.label).toOption

/-- Concrete decode function for witnesses: every file decodes to `[1]`
except `bad.wav`, which fails. -/
def featW : String → Except String (List ℚ) :=
  fun s => if s = "bad.wav" then .error "decode failure" else .ok [1]

/-- Concrete label parser for witnesses: `"1"` parses to 1, anything
else to 0 (always succeeds). -/
def plabelW : String → Except String ℤ :=
  fun s => if s = "1" then .ok 1 else .ok 0

/-- Concrete manifest for the C8 witness: one corrupt file among two
valid ones. -/
def rowsW : List Row :=
  [⟨"a.wav", "0"⟩, ⟨"bad.wav", "1"⟩, ⟨"b.wav", "1"⟩]

/-- Concrete decode function that always succeeds (for the C10
counterexample). -/
def featB : String → Except String (List ℚ) :=
  fun _ => .ok [0]

/-- Concrete label parser that always fails, as `int(row.label)` does on
a non-numeric CSV label value. -/
def plabelB : String → Except String ℤ :=
  fun _ => .error "invalid literal for int()"

/-- A one-row manifest whose label column holds a non-numeric value. -/
def rowsB : List Row :=
  [⟨"a.wav", "x"⟩]

/-- Concrete decode function that always fails (for the C5
counterexample: every row of the manifest is corrupt). -/
def featD : String → Except String (List ℚ) :=
  fun _ => .error "decode failure"

/-- One-row manifest whose only file is corrupt. -/
def rowsD : List Row :=
  [⟨"bad.wav", "0"⟩]

/-- Two-row, two-class manifest with decodable files (for the C5
amended witness). -/
def rowsT : List Row :=
  [⟨"a.wav", "0"⟩, ⟨"b.wav", "1"⟩]

/-- Concrete decode function reproducing the C1 width mismatch: the
zero-length clip `empty.wav` yields the 12-wide zero vector of
`featurize`'s degenerate branch, every other file a 13-wide vector. -/
def featM : String → Except String (List ℚ) :=
  fun s => if s = "empty.wav" then .ok (List.replicate 12 0)
           else .ok (List.replicate 13 0)

/-- Two-class manifest containing one zero-length clip (for the C5
ragged-width witness). -/
def rowsM : List Row :=
  [⟨"empty.wav", "0"⟩, ⟨"a.wav", "1"⟩]

/-- Concrete two-example, two-class dataset for the C3 witness. -/
def L3 : List (ℕ × ℤ) := [(0, 0), (1, 1)]

/-- Concrete four-example dataset (two per class) for the C4
counterexample. -/
def l4a : List (ℕ × ℤ) := [(0, 0), (1, 0), (2, 1), (3, 1)]

/-- `l4a` with its first two (same-class) examples swapped. -/
def l4b : List (ℕ × ℤ) := [(1, 0), (0, 0), (2, 1), (3, 1)]

theorem asNat_natCast (k : ℕ) : asNat (k : ℚ) = .ok k := by
  simp [asNat, Rat.num_natCast, Rat.den_natCast]

/-- **C1** (code bug evidence). The spec requires a zero-length signal to
yield the all-zero vector of the constant feature length 13, but
`featurize` returns `np.zeros(12)` on an empty signal while every
non-empty signal yields a 13-vector: the degenerate branch produces the
wrong length and the constant-length invariant is broken by the code. -/
theorem c1_zero_signal_length_bug (d : DSP) (cfg : ExtractionConfig) :
    featurize d cfg [] = List.replicate 12 0 ∧
    (featurize d cfg []).length = 12 ∧
    ∀ y : List ℚ, y ≠ [] → (featurize d cfg y).length = 13 := by
  refine ⟨by simp [featurize], by simp [featurize], ?_⟩
  intro y hy
  have h : ¬ y.length = 0 := by simpa [List.length_eq_zero] using hy
  simp [featurize, h]

/-- Closed instance of `c1_zero_signal_length_bug` at concrete inputs. -/
theorem c1_zero_signal_length_bug_witness :
    featurize dsp0 cfg0 [] = List.replicate 12 0 ∧
    (featurize dsp0 cfg0 []).length = 12 ∧
    (featurize dsp0 cfg0 [1]).length = 13 := by
  obtain ⟨h1, h2, h3⟩ := c1_zero_signal_length_bug dsp0 cfg0
  exact ⟨h1, h2, h3 [1] (by decide)⟩

/-- **C2**. For every non-empty signal, `featurize` returns the
13-element vector in the exact order: mean, std, 10th/50th/90th
percentile of the flattened log-mel matrix, then mean and std of
spectral centroid, spectral rolloff, zero-crossing rate and RMS energy,
each scalar narrowed by the float32 cast. -/
theorem c2_feature_order (d : DSP) (cfg : ExtractionConfig) (y : List ℚ)
    (hy : y ≠ []) :
    featurize d cfg y =
      [d.toF32 (d.mean (d.logmelFlat cfg y)),
       d.toF32 (d.std (d.logmelFlat cfg y)),
       d.toF32 (d.percentile (d.logmelFlat cfg y) 10),
       d.toF32 (d.percentile (d.logmelFlat cfg y) 50),
       d.toF32 (d.percentile (d.logmelFlat cfg y) 90),
       d.toF32 (d.mean (d.spectralCentroid cfg y)),
       d.toF32 (d.std (d.spectralCentroid cfg y)),
       d.toF32 (d.mean (d.spectralRolloff cfg y)),
       d.toF32 (d.std (d.spectralRolloff cfg y)),
       d.toF32 (d.mean (d.zeroCrossingRate y)),
       d.toF32 (d.std (d.zeroCrossingRate y)),
       d.toF32 (d.mean (d.rms y)),
       d.toF32 (d.std (d.rms y))] := by
  have h : ¬ y.length = 0 := by simpa [List.length_eq_zero] using hy
  simp [featurize, h]

/-- Closed instance of `c2_feature_order` at concrete inputs. -/
theorem c2_feature_order_witness :
    featurize dsp0 cfg0 [1] = [1, 1, 10, 50, 90, 2, 1, 3, 1, 4, 1, 5, 1] := by
  rw [c2_feature_order dsp0 cfg0 [1] (by simp)]
  simp [dsp0]

/-- **C6**. The decision threshold is inclusive: a probability of exactly
0.5 maps to label 1 both in the evaluator's vectorized thresholding and
in single-file inference. -/
theorem c6_threshold_inclusive (p : ℚ) (h : p = 1/2) :
    predLabel p = 1 ∧ thresholdPreds [p] = [1] := by
  subst h
  constructor
  · simp [predLabel]
  · simp [thresholdPreds, predLabel]

/-- Closed instance of `c6_threshold_inclusive` at probability 1/2. -/
theorem c6_threshold_inclusive_witness :
    predLabel (1/2) = 1 ∧ thresholdPreds [(1 : ℚ)/2] = [1] :=
  c6_threshold_inclusive (1/2) rfl

/-- **C9**. Inference never compares the supplied configuration with the
one stored in the artifact: the output is computed unconditionally
(no mismatch error path exists) and is invariant under any change of the
stored configuration — it depends only on the supplied configuration,
model and audio. -/
theorem c9_stored_config_not_compared
    (proba : LogregModel → List ℚ → ℚ) (d : DSP) (cfg : ExtractionConfig)
    (m : LogregModel) (c₁ c₂ : ExtractionConfig) (audio : List ℚ) :
    predictMain proba d cfg ⟨m, c₁⟩ audio =
      (proba m (featurize d cfg audio), predLabel (proba m (featurize d cfg audio))) ∧
    predictMain proba d cfg ⟨m, c₁⟩ audio = predictMain proba d cfg ⟨m, c₂⟩ audio :=
  ⟨rfl, rfl⟩

theorem decodePack_encodePack (p : Pack) : decodePack (encodePack p) = .ok p := by
  obtain ⟨⟨coef, i⟩, ⟨sr, md, nf, hl, nm⟩⟩ := p
  have hdrop : List.drop coef.length
      (coef ++ [i, (sr : ℚ), md, (nf : ℚ), (hl : ℚ), (nm : ℚ)]) =
      [i, (sr : ℚ), md, (nf : ℚ), (hl : ℚ), (nm : ℚ)] := List.drop_left _ _
  have htake : List.take coef.length
      (coef ++ [i, (sr : ℚ), md, (nf : ℚ), (hl : ℚ), (nm : ℚ)]) = coef :=
    List.take_left _ _
  simp [encodePack, decodePack, asNat_natCast, hdrop, htake]

/-- **C7**. Round-trip persistence: decoding the encoded artifact bundle
yields exactly the pack that was saved, hence a model producing
identical probabilities on any test vector (for any probability map of
the model parameters) and a config equal to the one passed to save;
moreover a load is all-or-nothing: for every stream it yields either a
fully usable pack or an error, never partial state. -/
theorem c7_artifact_roundtrip (proba : LogregModel → List ℚ → ℚ)
    (p : Pack) (x : List ℚ) :
    decodePack (encodePack p) = .ok p ∧
    (∀ q : Pack, decodePack (encodePack p) = .ok q →
      proba q.model x = proba p.model x ∧ q.config = p.config) ∧
    (∀ s : List ℚ, (∃ q, decodePack s = .ok q) ∨ (∃ e, decodePack s = .error e)) := by
  refine ⟨decodePack_encodePack p, ?_, ?_⟩
  · intro q hq
    rw [decodePack_encodePack p] at hq
    cases hq
    exact ⟨rfl, rfl⟩
  · intro s
    cases h : decodePack s with
    | ok q => exact Or.inl ⟨q, rfl⟩
    | error e => exact Or.inr ⟨e, rfl⟩

/-- Closed instance of `c7_artifact_roundtrip` at a concrete pack. -/
theorem c7_artifact_roundtrip_witness :
    decodePack (encodePack ⟨⟨[3, 7], 9⟩, cfg0⟩) = .ok ⟨⟨[3, 7], 9⟩, cfg0⟩ ∧
    ((⟨⟨[3, 7], 9⟩, cfg0⟩ : Pack).config = cfg0) := by
  refine ⟨(c7_artifact_roundtrip (fun m _ => m.intercept) ⟨⟨[3, 7], 9⟩, cfg0⟩ []).1, rfl⟩

theorem assembleStep_decompose (feat : String → Except String (List ℚ))
    (plabel : String → Except String ℤ) (st : AssembleState) (r : Row) :
    assembleStep feat plabel st r =
      ⟨st.X ++ (assembleStep feat plabel ⟨[], [], [], []⟩ r).X,
       st.y ++ (assembleStep feat plabel ⟨[], [], [], []⟩ r).y,
       st.kept_paths ++ (assembleStep feat plabel ⟨[], [], [], []⟩ r).kept_paths,
       st.skipLog ++ (assembleStep feat plabel ⟨[], [], [], []⟩ r).skipLog⟩ := by
  unfold assembleStep
  cases feat r.path with
  | error e => simp
  | ok v =>
    cases plabel r.label with
    | error e => simp
    | ok n => simp

theorem assemble_from (feat : String → Except String (List ℚ))
    (plabel : String → Except String ℤ) (rows : List Row)
    (st : AssembleState) :
    rows.foldl (assembleStep feat plabel) st =
      ⟨st.X ++ (assemble feat plabel rows).X,
       st.y ++ (assemble feat plabel rows).y,
       st.kept_paths ++ (assemble feat plabel rows).kept_paths,
       st.skipLog ++ (assemble feat plabel rows).skipLog⟩ := by
  induction rows generalizing st with
  | nil => simp [assemble]
  | cons r rs ih =>
    rw [List.foldl_cons, ih]
    conv_rhs => rw [assemble, List.foldl_cons, ih]
    rw [assembleStep_decompose feat plabel st r]
    rw [assembleStep_decompose feat plabel ⟨[], [], [], []⟩ r]
    simp

theorem assemble_cons (feat : String → Except String (List ℚ))
    (plabel : String → Except String ℤ) (r : Row) (rs : List Row) :
    assemble feat plabel (r :: rs) =
      ⟨(assembleStep feat plabel ⟨[], [], [], []⟩ r).X ++ (assemble feat plabel rs).X,
       (assembleStep feat plabel ⟨[], [], [], []⟩ r).y ++ (assemble feat plabel rs).y,
       (assembleStep feat plabel ⟨[], [], [], []⟩ r).kept_paths ++
         (assemble feat plabel rs).kept_paths,
       (assembleStep feat plabel ⟨[], [], [], []⟩ r).skipLog ++
         (assemble feat plabel rs).skipLog⟩ := by
  rw [assemble, List.foldl_cons, assemble_from]

theorem assemble_X_eq (feat : String → Except String (List ℚ))
    (plabel : String → Except String ℤ) (rows : List Row) :
    (assemble feat plabel rows).X = rows.filterMap (rowFeat feat) := by
  induction rows with
  | nil => rfl
  | cons r rs ih =>
    rw [assemble_cons, List.filterMap_cons]
    cases hf : feat r.path with
    | error e => simp [assembleStep, rowFeat, hf, Except.toOption, ih]
    | ok v =>
      cases hp : plabel r.label with
      | error e => simp [assembleStep, rowFeat, hf, hp, Except.toOption, ih]
      | ok n => simp [assembleStep, rowFeat, hf, hp, Except.toOption, ih]

theorem assemble_y_eq (feat : String → Except String (List ℚ))
    (plabel : String → Except String ℤ) (rows : List Row) :
    (assemble feat plabel rows).y = rows.filterMap (rowLab feat plabel) := by
  induction rows with
  | nil => rfl
  | cons r rs ih =>
    rw [assemble_cons, List.filterMap_cons]
    cases hf : feat r.path with
    | error e => simp [assembleStep, rowLab, hf, Except.toOption, ih]
    | ok v =>
      cases hp : plabel r.label with
      | error e => simp [assembleStep, rowLab, hf, hp, Except.toOption, ih]
      | ok n => simp [assembleStep, rowLab, hf, hp, Except.toOption, ih]

theorem assemble_skipLog_eq (feat : String → Except String (List ℚ))
    (plabel : String → Except String ℤ) (rows : List Row) :
    (assemble feat plabel rows).skipLog =
      (rows.filter (fun r => (rowLab feat plabel r).isNone)).map Row.path := by
  induction rows with
  | nil => rfl
  | cons r rs ih =>
    rw [assemble_cons, List.filter_cons]
    cases hf : feat r.path with
    | error e => simp [assembleStep, rowLab, hf, Except.toOption, ih]
    | ok v =>
      cases hp : plabel r.label with
      | error e => simp [assembleStep, rowLab, hf, hp, Except.toOption, ih]
      | ok n => simp [assembleStep, rowLab, hf, hp, Except.toOption, ih]

theorem assemble_kept_eq (feat : String → Except String (List ℚ))
    (plabel : String → Except String ℤ) (rows : List Row) :
    (assemble feat plabel rows).kept_paths =
      (rows.filter (fun r => (rowLab feat plabel r).isSome)).map Row.path := by
  induction rows with
  | nil => rfl
  | cons r rs ih =>
    rw [assemble_cons, List.filter_cons]
    cases hf : feat r.path with
    | error e => simp [assembleStep, rowLab, hf, Except.toOption, ih]
    | ok v =>
      cases hp : plabel r.label with
      | error e => simp [assembleStep, rowLab, hf, hp, Except.toOption, ih]
      | ok n => simp [assembleStep, rowLab, hf, hp, Except.toOption, ih]

theorem assemble_y_length_le (feat : String → Except String (List ℚ))
    (plabel : String → Except String ℤ) (rows : List Row) :
    (assemble feat plabel rows).y.length ≤ (assemble feat plabel rows).X.length := by
  induction rows with
  | nil => simp [assemble]
  | cons r rs ih =>
    rw [assemble_cons]
    cases hf : feat r.path with
    | error e => simpa [assembleStep, hf] using ih
    | ok v =>
      cases hp : plabel r.label with
      | error e =>
        simp only [assembleStep, hf, hp, List.length_append, List.length_cons,
          List.length_nil, List.nil_append]
        omega
      | ok n =>
        simp only [assembleStep, hf, hp, List.length_append, List.length_cons,
          List.length_nil, List.nil_append]
        omega

theorem except_toOption_ok {ε α : Type} (v : α) :
    (Except.ok v : Except ε α).toOption = some v := rfl

theorem except_toOption_error {ε α : Type} (e : ε) :
    (Except.error e : Except ε α).toOption = none := rfl

theorem filterMap_lab_length_eq (feat : String → Except String (List ℚ))
    (plabel : String → Except String ℤ) :
    ∀ rows : List Row, (∀ r ∈ rows, (plabel r.label).toOption.isSome = true) →
      (rows.filterMap (rowLab feat plabel)).length =
        (rows.filterMap (rowFeat feat)).length := by
  intro rows
  induction rows with
  | nil => intro _; rfl
  | cons r rs ih =>
    intro h
    have hr := h r (List.mem_cons_self r rs)
    have hrs := fun r' hr' => h r' (List.mem_cons_of_mem r hr')
    obtain ⟨n, hn⟩ := Option.isSome_iff_exists.mp hr
    cases hf : feat r.path with
    | error e =>
      simp [List.filterMap_cons, rowFeat, rowLab, hf, Except.toOption, ih hrs]
    | ok v =>
      simp [List.filterMap_cons, rowFeat, rowLab, hf, hn, except_toOption_ok, ih hrs]

/-- **C8**. When every manifest label parses (the decode-failure
scenario), the batch loop never aborts: the assembled `X` consists of
exactly the successfully decoded rows' feature vectors, the skip log is
exactly the paths of the rows whose decode failed, every failing row's
path lands in the skip log, and `X` and `y` stay equal-length so
training proceeds on exactly the surviving examples. -/
theorem c8_record_and_skip (feat : String → Except String (List ℚ))
    (plabel : String → Except String ℤ) (rows : List Row)
    (hlab : ∀ r ∈ rows, (plabel r.label).toOption.isSome = true) :
    (assemble feat plabel rows).X = rows.filterMap (rowFeat feat) ∧
    (assemble feat plabel rows).skipLog =
      (rows.filter (fun r => (rowFeat feat r).isNone)).map Row.path ∧
    (∀ r ∈ rows, rowFeat feat r = none →
      r.path ∈ (assemble feat plabel rows).skipLog) ∧
    (assemble feat plabel rows).y.length = (assemble feat plabel rows).X.length := by
  have hpred : ∀ r ∈ rows,
      (rowLab feat plabel r).isNone = (rowFeat feat r).isNone := by
    intro r hr
    obtain ⟨n, hn⟩ := Option.isSome_iff_exists.mp (hlab r hr)
    cases hf : feat r.path with
    | error e => simp [rowLab, rowFeat, hf, Except.toOption]
    | ok v => simp [rowLab, rowFeat, hf, hn, except_toOption_ok]
  have hskip : (assemble feat plabel rows).skipLog =
      (rows.filter (fun r => (rowFeat feat r).isNone)).map Row.path := by
    rw [assemble_skipLog_eq, List.filter_congr hpred]
  refine ⟨assemble_X_eq feat plabel rows, hskip, ?_, ?_⟩
  · intro r hr hnone
    rw [hskip]
    exact List.mem_map_of_mem Row.path
      (List.mem_filter.mpr ⟨hr, by simp [hnone]⟩)
  · rw [assemble_X_eq, assemble_y_eq]
    exact filterMap_lab_length_eq feat plabel rows hlab

/-- Closed instance of `c8_record_and_skip`: one corrupt file among two
valid ones is skipped and logged while the rest train. -/
theorem c8_record_and_skip_witness :
    (∀ r ∈ rowsW, (plabelW r.label).toOption.isSome = true) ∧
    ((assemble featW plabelW rowsW).X = rowsW.filterMap (rowFeat featW) ∧
     (assemble featW plabelW rowsW).skipLog =
       (rowsW.filter (fun r => (rowFeat featW r).isNone)).map Row.path ∧
     (∀ r ∈ rowsW, rowFeat featW r = none →
       r.path ∈ (assemble featW plabelW rowsW).skipLog) ∧
     (assemble featW plabelW rowsW).y.length =
       (assemble featW plabelW rowsW).X.length) ∧
    (assemble featW plabelW rowsW).skipLog = ["bad.wav"] :=
  ⟨by decide, c8_record_and_skip featW plabelW rowsW (by decide), by decide⟩

/-- **C10, counterexample**. Row processing is *not* both-or-neither:
on a row whose audio decodes but whose label fails `int(...)`, the
feature vector has already been appended to `X` when the exception
fires, so `X` and `y` end up with different lengths (1 vs 0) and lose
positional alignment. -/
theorem c10_counterexample :
    (assemble featB plabelB rowsB).X.length = 1 ∧
    (assemble featB plabelB rowsB).y.length = 0 ∧
    (assemble featB plabelB rowsB).X.length ≠ (assemble featB plabelB rowsB).y.length := by
  refine ⟨rfl, rfl, by decide⟩

/-- **C10, amended**. Per-row atomicity holds only for rows whose label
parses whenever their featurization succeeds: for such a row the step
appends to both `X` and `y` or to neither, and over a whole manifest of
such rows the two lists end with equal lengths.  (When featurization
succeeds and label parsing fails, `X` alone grows — the counterexample
above.) -/
theorem c10_amended_atomicity (feat : String → Except String (List ℚ))
    (plabel : String → Except String ℤ) :
    (∀ (st : AssembleState) (r : Row),
      ((feat r.path).toOption.isSome = true → (plabel r.label).toOption.isSome = true) →
      ((assembleStep feat plabel st r).X.length = st.X.length + 1 ∧
       (assembleStep feat plabel st r).y.length = st.y.length + 1) ∨
      ((assembleStep feat plabel st r).X = st.X ∧
       (assembleStep feat plabel st r).y = st.y)) ∧
    (∀ rows : List Row,
      (∀ r ∈ rows,
        (feat r.path).toOption.isSome = true → (plabel r.label).toOption.isSome = true) →
      (assemble feat plabel rows).X.length = (assemble feat plabel rows).y.length) := by
  constructor
  · intro st r h
    cases hf : feat r.path with
    | error e => exact Or.inr (by simp [assembleStep, hf])
    | ok v =>
      have hs : (plabel r.label).toOption.isSome = true := by
        exact h (by simp [hf, except_toOption_ok])
      obtain ⟨n, hn⟩ := Option.isSome_iff_exists.mp hs
      cases hp : plabel r.label with
      | error e => simp [hp, except_toOption_error] at hn
      | ok m => exact Or.inl (by simp [assembleStep, hf, hp])
  · intro rows h
    induction rows with
    | nil => rfl
    | cons r rs ih =>
      have hr := h r (List.mem_cons_self r rs)
      have hrs := ih (fun r' hr' => h r' (List.mem_cons_of_mem r hr'))
      rw [assemble_cons]
      cases hf : feat r.path with
      | error e => simpa [assembleStep, hf] using hrs
      | ok v =>
        have hs : (plabel r.label).toOption.isSome = true :=
          hr (by simp [hf, except_toOption_ok])
        obtain ⟨n, hn⟩ := Option.isSome_iff_exists.mp hs
        cases hp : plabel r.label with
        | error e => simp [hp, except_toOption_error] at hn
        | ok m => simpa [assembleStep, hf, hp] using hrs

/-- Closed instance of `c10_amended_atomicity`: with an always-parsing
label column the two lists stay aligned. -/
theorem c10_amended_atomicity_witness :
    (∀ r ∈ rowsW,
      (featW r.path).toOption.isSome = true → (plabelW r.label).toOption.isSome = true) ∧
    (assemble featW plabelW rowsW).X.length = (assemble featW plabelW rowsW).y.length :=
  ⟨by decide, (c10_amended_atomicity featW plabelW).2 rowsW (by decide)⟩

/-- **C5, counterexample**. With zero kept examples, fewer than two
distinct labels are present (zero of them), yet the run does not raise
`InsufficientClassesError`: `np.vstack([])` raises a `ValueError` first,
so the claimed "if" direction fails on this input. -/
theorem c5_counterexample :
    (assemble featD plabelW rowsD).y.dedup.length < 2 ∧
    checkClasses featD plabelW rowsD = .error .stackError ∧
    checkClasses featD plabelW rowsD ≠ .error .insufficientClasses := by
  refine ⟨by decide, rfl, ?_⟩
  intro h
  exact TrainError.noConfusion (Except.error.inj h)

/-- **C5, amended**. The run raises `InsufficientClassesError` iff the
stacking step succeeds — at least one feature vector was assembled and
all assembled vectors have the same width — *and* the kept labels
contain fewer than two distinct values; when no vector was assembled, or
the widths are ragged (e.g. the 12-wide empty-signal vector of the C1
bug among 13-wide ones), `np.vstack` raises a `ValueError` first even if
fewer than two classes are present.  With uniform widths and two or more
distinct labels present it does not raise and hands the assembled data
on to the split stage — the error, when it fires, precedes any split or
fit. -/
theorem c5_amended_class_guard (feat : String → Except String (List ℚ))
    (plabel : String → Except String ℤ) (rows : List Row) :
    (checkClasses feat plabel rows = .error .insufficientClasses ↔
      ((assemble feat plabel rows).X ≠ [] ∧
       uniformWidth (assemble feat plabel rows).X = true ∧
       (assemble feat plabel rows).y.dedup.length < 2)) ∧
    (uniformWidth (assemble feat plabel rows).X = true →
      2 ≤ (assemble feat plabel rows).y.dedup.length →
      checkClasses feat plabel rows =
        .ok ((assemble feat plabel rows).X, (assemble feat plabel rows).y)) := by
  constructor
  · by_cases h0 : (assemble feat plabel rows).X.length = 0
    · have hx : (assemble feat plabel rows).X = [] := List.length_eq_zero.mp h0
      simp [checkClasses, h0, hx]
    · cases hw : uniformWidth (assemble feat plabel rows).X with
      | false => simp [checkClasses, h0, hw]
      | true =>
        by_cases h1 : (assemble feat plabel rows).y.dedup.length < 2
        · have hx : (assemble feat plabel rows).X ≠ [] := by
            intro h; exact h0 (by simp [h])
          simp [checkClasses, h0, hw, h1, hx]
        · simp [checkClasses, h0, hw, h1]
  · intro hw h2
    have hy : (assemble feat plabel rows).y ≠ [] := by
      intro h; rw [h] at h2; simp at h2
    have hxlen : ¬ (assemble feat plabel rows).X.length = 0 := by
      intro h0
      have hle := assemble_y_length_le feat plabel rows
      rw [h0] at hle
      exact hy (List.length_eq_zero.mp (Nat.le_zero.mp hle))
    simp [checkClasses, hxlen, hw, Nat.not_lt.mpr h2]

/-- Closed instances of `c5_amended_class_guard`: a two-class manifest
of uniform-width vectors passes the guard and reaches the split stage,
while a two-class manifest containing the 12-wide empty-signal vector
among 13-wide ones fails at stacking, not at the class guard. -/
theorem c5_amended_class_guard_witness :
    (uniformWidth (assemble featB plabelW rowsT).X = true ∧
     2 ≤ (assemble featB plabelW rowsT).y.dedup.length ∧
     checkClasses featB plabelW rowsT =
       .ok ((assemble featB plabelW rowsT).X, (assemble featB plabelW rowsT).y)) ∧
    (2 ≤ (assemble featM plabelW rowsM).y.dedup.length ∧
     checkClasses featM plabelW rowsM = .error .stackError) :=
  ⟨⟨by decide, by decide,
    (c5_amended_class_guard featB plabelW rowsT).2 (by decide) (by decide)⟩,
   by decide, rfl⟩

theorem perm_four_swap {β : Type} (a b c d : List β) :
    ((a ++ b) ++ (c ++ d)).Perm ((a ++ c) ++ (b ++ d)) := by
  rw [← Multiset.coe_eq_coe]
  simp only [← Multiset.coe_add]
  rw [add_add_add_comm]

theorem shuffle_perm {β : Type} (seed : ℕ) (l : List β) :
    (shuffle seed l).Perm l :=
  List.rotate_perm l (seed % (l.length + 1))

theorem tts_perm {β : Type} (seed : ℕ) (frac : ℚ) (l : List β) :
    ((tts seed frac l).1 ++ (tts seed frac l).2).Perm l := by
  have h1 : ((shuffle seed l).drop (nTestOf frac (shuffle seed l).length) ++
      (shuffle seed l).take (nTestOf frac (shuffle seed l).length)).Perm
      ((shuffle seed l).take (nTestOf frac (shuffle seed l).length) ++
       (shuffle seed l).drop (nTestOf frac (shuffle seed l).length)) :=
    List.perm_append_comm
  rw [List.take_append_drop] at h1
  exact h1.trans (shuffle_perm seed l)

theorem filter_parts_perm {α : Type} (ks : List ℤ) :
    ∀ l : List (α × ℤ), ks.Nodup → (∀ x ∈ l, x.2 ∈ ks) →
      (ks.map (fun k => l.filter (fun x => decide (x.2 = k)))).flatten.Perm l := by
  induction ks with
  | nil =>
    intro l _ hsub
    have hl : l = [] := by
      cases l with
      | nil => rfl
      | cons x t => exact absurd (hsub x (List.mem_cons_self x t)) (List.not_mem_nil x.2)
    simp [hl]
  | cons k ks ih =>
    intro l hnd hsub
    simp only [List.map_cons, List.flatten_cons]
    have hfp := List.filter_append_perm (fun x => decide (x.2 = k)) l
    have hmap : ks.map (fun j => l.filter (fun x => decide (x.2 = j))) =
        ks.map (fun j =>
          (l.filter (fun x => !decide (x.2 = k))).filter
            (fun x => decide (x.2 = j))) := by
      apply List.map_congr_left
      intro j hj
      have hjk : j ≠ k := by
        rintro rfl
        exact (List.nodup_cons.mp hnd).1 hj
      rw [List.filter_filter]
      apply List.filter_congr
      intro x _
      by_cases hxj : x.2 = j
      · simp [hxj, hjk]
      · simp [hxj]
    rw [hmap]
    have hsub' : ∀ x ∈ l.filter (fun x => !decide (x.2 = k)), x.2 ∈ ks := by
      intro x hx
      obtain ⟨hxl, hxk⟩ := List.mem_filter.mp hx
      rcases List.mem_cons.mp (hsub x hxl) with h | h
      · exfalso; simp [h] at hxk
      · exact h
    exact (List.Perm.append_left _
      (ih (l.filter (fun x => !decide (x.2 = k)))
        (List.nodup_cons.mp hnd).2 hsub')).trans hfp

theorem classParts_perm {α : Type} (l : List (α × ℤ)) :
    (classParts l).flatten.Perm l := by
  rw [classParts]
  exact filter_parts_perm _ l (List.nodup_dedup _)
    (fun x hx => List.mem_dedup.mpr (List.mem_map_of_mem Prod.snd hx))

theorem flatten_pair_perm {β : Type} (parts : List (List β))
    (f1 f2 : List β → List β)
    (h : ∀ g ∈ parts, ((f1 g) ++ (f2 g)).Perm g) :
    ((parts.map f1).flatten ++ (parts.map f2).flatten).Perm parts.flatten := by
  induction parts with
  | nil => simp
  | cons g t ih =>
    simp only [List.map_cons, List.flatten_cons]
    have hg := h g (List.mem_cons_self g t)
    have ht := ih (fun g' hg' => h g' (List.mem_cons_of_mem g hg'))
    exact (perm_four_swap (f1 g) ((t.map f1).flatten) (f2 g)
      ((t.map f2).flatten)).trans (hg.append ht)

theorem stratTTS_perm {α : Type} (seed : ℕ) (frac : ℚ) (l : List (α × ℤ)) :
    ((stratTTS seed frac l).1 ++ (stratTTS seed frac l).2).Perm l := by
  refine (flatten_pair_perm (classParts l) _ _ ?_).trans (classParts_perm l)
  intro g _
  exact tts_perm seed frac g

theorem splitDataset_perm {α : Type} (seed : ℕ) (a b c : ℚ) (l : List (α × ℤ)) :
    ((splitDataset seed a b c l).1 ++
      ((splitDataset seed a b c l).2.1 ++ (splitDataset seed a b c l).2.2)).Perm l := by
  have h2 := stratTTS_perm seed (1 - b / (b + c)) (stratTTS seed (1 - a) l).2
  have h1 := stratTTS_perm seed (1 - a) l
  exact ((List.Perm.append_left (stratTTS seed (1 - a) l).1 h2).trans h1)

/-- **C3**. For valid split ratios the two-stage splitter (train carved
off first, remainder split by `val/(val+test)`) produces three lists
whose concatenation is a permutation of the input — hence sizes summing
to the input size — and which are pairwise disjoint whenever the input
has no duplicate examples. -/
theorem c3_split_partition {α : Type} (seed : ℕ) (a b c : ℚ)
    (h1 : 0 < a) (h2 : a < 1) (h3 : 0 < b) (h4 : b < 1)
    (h5 : 0 < c) (h6 : c < 1) (hsum : a + b + c = 1)
    (l : List (α × ℤ)) :
    ((splitDataset seed a b c l).1 ++ (splitDataset seed a b c l).2.1 ++
      (splitDataset seed a b c l).2.2).Perm l ∧
    (splitDataset seed a b c l).1.length + (splitDataset seed a b c l).2.1.length +
      (splitDataset seed a b c l).2.2.length = l.length ∧
    (l.Nodup →
      (splitDataset seed a b c l).1.Disjoint (splitDataset seed a b c l).2.1 ∧
      (splitDataset seed a b c l).1.Disjoint (splitDataset seed a b c l).2.2 ∧
      (splitDataset seed a b c l).2.1.Disjoint (splitDataset seed a b c l).2.2) := by
  have hperm : ((splitDataset seed a b c l).1 ++ (splitDataset seed a b c l).2.1 ++
      (splitDataset seed a b c l).2.2).Perm l := by
    rw [List.append_assoc]
    exact splitDataset_perm seed a b c l
  refine ⟨hperm, ?_, ?_⟩
  · simpa [List.length_append, Nat.add_assoc] using hperm.length_eq
  · intro hnd
    have hndAll := hperm.nodup_iff.mpr hnd
    obtain ⟨hxy, hz, hdisj⟩ := List.nodup_append.mp hndAll
    obtain ⟨hx, hy, hdxy⟩ := List.nodup_append.mp hxy
    refine ⟨hdxy, ?_, ?_⟩
    · intro e he1 he2
      exact hdisj (List.mem_append_left _ he1) he2
    · intro e he1 he2
      exact hdisj (List.mem_append_right _ he1) he2

/-- Closed instance of `c3_split_partition` at a concrete dataset and
the ratios 1/2, 1/4, 1/4. -/
theorem c3_split_partition_witness :
    ((splitDataset 0 (1/2 : ℚ) (1/4) (1/4) L3).1 ++
      (splitDataset 0 (1/2 : ℚ) (1/4) (1/4) L3).2.1 ++
      (splitDataset 0 (1/2 : ℚ) (1/4) (1/4) L3).2.2).Perm L3 ∧
    (splitDataset 0 (1/2 : ℚ) (1/4) (1/4) L3).1.length +
      (splitDataset 0 (1/2 : ℚ) (1/4) (1/4) L3).2.1.length +
      (splitDataset 0 (1/2 : ℚ) (1/4) (1/4) L3).2.2.length = L3.length ∧
    (L3.Nodup →
      (splitDataset 0 (1/2 : ℚ) (1/4) (1/4) L3).1.Disjoint
        (splitDataset 0 (1/2 : ℚ) (1/4) (1/4) L3).2.1 ∧
      (splitDataset 0 (1/2 : ℚ) (1/4) (1/4) L3).1.Disjoint
        (splitDataset 0 (1/2 : ℚ) (1/4) (1/4) L3).2.2 ∧
      (splitDataset 0 (1/2 : ℚ) (1/4) (1/4) L3).2.1.Disjoint
        (splitDataset 0 (1/2 : ℚ) (1/4) (1/4) L3).2.2) :=
  c3_split_partition 0 (1/2) (1/4) (1/4) (by norm_num) (by norm_num)
    (by norm_num) (by norm_num) (by norm_num) (by norm_num) (by norm_num) L3

theorem nTestOf_half_two : nTestOf (1 - 1/2 : ℚ) 2 = 1 := by
  have h : ((1 : ℚ) - 1/2) * ((2 : ℕ) : ℚ) = 1 := by norm_num
  rw [nTestOf, h]
  norm_num

theorem tts_eval_pair {β : Type} (x y : β) :
    tts 0 (1 - 1/2 : ℚ) [x, y] = ([y], [x]) := by
  have hs : shuffle 0 [x, y] = [x, y] := by
    simp [shuffle]
  have hlen : ([x, y] : List β).length = 2 := rfl
  simp only [tts, hs, hlen, nTestOf_half_two]
  rfl

theorem strat_eval_a :
    stratTTS 0 (1 - 1/2 : ℚ) l4a = ([(1, 0), (3, 1)], [(0, 0), (2, 1)]) := by
  have hcp : classParts l4a = [[(0, 0), (1, 0)], [(2, 1), (3, 1)]] := by decide
  simp only [stratTTS, hcp, List.map_cons, List.map_nil, List.flatten_cons,
    List.flatten_nil, tts_eval_pair]
  rfl

theorem strat_eval_b :
    stratTTS 0 (1 - 1/2 : ℚ) l4b = ([(0, 0), (3, 1)], [(1, 0), (2, 1)]) := by
  have hcp : classParts l4b = [[(1, 0), (0, 0)], [(2, 1), (3, 1)]] := by decide
  simp only [stratTTS, hcp, List.map_cons, List.map_nil, List.flatten_cons,
    List.flatten_nil, tts_eval_pair]
  rfl

/-- **C4, counterexample**. The split is *not* invariant under input
reordering: swapping two same-class examples in the input moves a
different example into the train subset, so the train subsets of the two
orderings differ even as unordered sets (the splitter never canonicalizes
before applying its seed-determined positional selection). -/
theorem c4_counterexample :
    l4b.Perm l4a ∧
    ((1 : ℕ), (0 : ℤ)) ∈ (splitDataset 0 (1/2 : ℚ) (1/4) (1/4) l4a).1 ∧
    ((1 : ℕ), (0 : ℤ)) ∉ (splitDataset 0 (1/2 : ℚ) (1/4) (1/4) l4b).1 := by
  refine ⟨by decide, ?_, ?_⟩
  · show ((1 : ℕ), (0 : ℤ)) ∈ (stratTTS 0 (1 - 1/2 : ℚ) l4a).1
    rw [strat_eval_a]
    decide
  · show ((1 : ℕ), (0 : ℤ)) ∉ (stratTTS 0 (1 - 1/2 : ℚ) l4b).1
    rw [strat_eval_b]
    decide

/-- **C4, amended**. Reordering the input can change which examples land
in each subset (see the counterexample); what reordering does preserve
is the combined content: for any permutation of the input, the
concatenation of the three output subsets of the permuted input is a
permutation of that of the original input (both being permutations of
the input itself). -/
theorem c4_amended_multiset_invariance {α : Type} (seed : ℕ) (a b c : ℚ)
    (l1 l2 : List (α × ℤ)) (hperm : l2.Perm l1) :
    ((splitDataset seed a b c l2).1 ++
      ((splitDataset seed a b c l2).2.1 ++ (splitDataset seed a b c l2).2.2)).Perm
    ((splitDataset seed a b c l1).1 ++
      ((splitDataset seed a b c l1).2.1 ++ (splitDataset seed a b c l1).2.2)) :=
  ((splitDataset_perm seed a b c l2).trans hperm).trans
    (splitDataset_perm seed a b c l1).symm

/-- Closed instance of `c4_amended_multiset_invariance` on the two
concrete orderings used in the counterexample. -/
theorem c4_amended_multiset_invariance_witness :
    l4b.Perm l4a ∧
    ((splitDataset 0 (1/2 : ℚ) (1/4) (1/4) l4b).1 ++
      ((splitDataset 0 (1/2 : ℚ) (1/4) (1/4) l4b).2.1 ++
       (splitDataset 0 (1/2 : ℚ) (1/4) (1/4) l4b).2.2)).Perm
    ((splitDataset 0 (1/2 : ℚ) (1/4) (1/4) l4a).1 ++
      ((splitDataset 0 (1/2 : ℚ) (1/4) (1/4) l4a).2.1 ++
       (splitDataset 0 (1/2 : ℚ) (1/4) (1/4) l4a).2.2)) :=
  ⟨by decide, c4_amended_multiset_invariance 0 (1/2) (1/4) (1/4) l4a l4b (by decide)⟩
